import Mathlib

/-!
Shallow embedding of the `log` package (a Go logging library): severity
constants, devices, writers, loggers, the process-wide registry, and the
operations `NewDevice`, `NewLogger`, `NewWriter`, `UpdateLevel`,
`getLevelFromStr`, `SetLevel`, `Init`, `GetLogger`, `Logger.Write`, the
cached date integer of `updateNow`, and the file name built by
`FileDevice.Write`.  State (the global `loggerMap`) is passed explicitly as
a `Registry`; I/O effects of a write are recorded in a `WriteEffect` value;
code paths that panic in Go are represented by explicit `none` / `panicked`
results.
-/

namespace Log

/-- Severity constant DEBUG (Go: iota 0). -/
def DEBUG : Int := 0

/-- Severity constant INFO (Go: iota 1). -/
def INFO : Int := 1

/-- Severity constant WARN (Go: iota 2). -/
def WARN : Int := 2

/-- Severity constant ERROR (Go: iota 3). -/
def ERROR : Int := 3

/-- Severity constant DISABLE (Go: iota 4). -/
def DISABLE : Int := 4

/-- Severity constant FATAL (Go: iota 5). -/
def FATAL : Int := 5

/-- Output devices, one constructor per entry of `deviceMap`
(`file`, `stdout`, `console`).  A `FileDevice` carries its path
prefix string. -/
inductive Device where
  | fileDev (pfx : String)
  | console
  | stdout
deriving DecidableEq

/-- The only formatter the package constructs is `DefaultFormatter`. -/
inductive Formatter where
  | defaultFormatter
deriving DecidableEq

/-- `Writer`: a minimum severity paired with a device. -/
structure Writer where
  level : Int
  device : Device
deriving DecidableEq

/-- `Logger`: cached minimum level, formatter, and owned writers. -/
structure Logger where
  minLevel : Int
  format : Formatter
  writers : List Writer
deriving DecidableEq

/-- A logger definition from configuration (`LoggerDefine`). -/
structure LoggerDefine where
  name : String
  level : String
  writer : String

/-- The global `loggerMap`, passed explicitly. -/
def Registry : Type := String → Option Logger

/-- Map update: `loggerMap[k] = v`. -/
def regUpdate (r : Registry) (k : String) (v : Logger) : Registry :=
  fun q => if q = k then some v else r q

/-- `strings.ToLower`, per character (the strings the package compares
are ASCII, where Go's Unicode lowering and `Char.toLower` agree). -/
def strToLower (s : String) : String :=
  String.mk (s.data.map Char.toLower)

/-- Scan for the first colon, keeping the characters before it. -/
def splitDefineAux : List Char → List Char → List Char × Option (List Char)
  | [], acc => (acc.reverse, none)
  | c :: rest, acc =>
    if c = ':' then (acc.reverse, some rest) else splitDefineAux rest (c :: acc)

/-- `strings.SplitN(define, ":", 2)`: the part before the first colon and
the remainder (empty when there is no colon). -/
def splitDefine (s : String) : String × String :=
  match splitDefineAux s.data [] with
  | (nm, none) => (String.mk nm, "")
  | (nm, some rest) => (String.mk nm, String.mk rest)

/-- `NewDevice`: looks the kind up in `deviceMap`; an unknown kind is a
nil map entry in Go, and calling it panics — modelled as `none`. -/
def NewDevice (define : String) : Option Device :=
  let items := splitDefine define
  if items.1 = "file" then some (Device.fileDev items.2)
  else if items.1 = "stdout" then some Device.stdout
  else if items.1 = "console" then some Device.console
  else none

/-- `NewWriter(level, device)`; `none` when the device kind is unknown
(Go panics inside `NewDevice`). -/
def NewWriter (level : Int) (device : String) : Option Writer :=
  (NewDevice device).map (fun d => { level := level, device := d })

/-- `Logger.UpdateLevel`: `minLevel = DISABLE`, then lowered by each
writer whose level is strictly smaller than the current value. -/
def UpdateLevel (log : Logger) : Logger :=
  { log with
    minLevel := log.writers.foldl
      (fun m w => if w.level < m then w.level else m) DISABLE }

/-- `NewLogger(format, writers...)`: the struct literal leaves
`minLevel` at Go's zero value 0, then `UpdateLevel` runs. -/
def NewLogger (f : Formatter) (ws : List Writer) : Logger :=
  UpdateLevel { minLevel := 0, format := f, writers := ws }

/-- `getLevelFromStr` with the warning made explicit: the `Bool` is true
exactly when the default branch printed `logger level unknown`. -/
def getLevelFromStrRaw (level : String) : Int × Bool :=
  let ls := strToLower level
  if ls = "d" then (DEBUG, false)
  else if ls = "i" then (INFO, false)
  else if ls = "w" then (WARN, false)
  else if ls = "e" then (ERROR, false)
  else if ls = "debug" then (DEBUG, false)
  else if ls = "info" then (INFO, false)
  else if ls = "warn" then (WARN, false)
  else if ls = "warning" then (WARN, false)
  else if ls = "err" then (ERROR, false)
  else if ls = "error" then (ERROR, false)
  else if ls = "disable" then (DISABLE, false)
  else (INFO, true)

/-- The severity value `getLevelFromStr` returns. -/
def getLevelFromStr (level : String) : Int :=
  (getLevelFromStrRaw level).1

/-- Outcome of `SetLevel`: the returned error value, or `panicked` for
the Go runtime panic raised by `log.writers[index]` with `index < -1`. -/
inductive SetLevelErr where
  | ok
  | nameNotFound
  | indexOutOfBound
  | panicked
deriving DecidableEq

/-- Replace the level of the writer at position `i`
(Go: `log.writers[index].level = newlevel`). -/
def setWriterLevel : List Writer → Nat → Int → List Writer
  | [], _, _ => []
  | w :: rest, 0, lv => { w with level := lv } :: rest
  | w :: rest, i + 1, lv => w :: setWriterLevel rest i lv

/-- `SetLevel(name, index, level)`.  The `index == -1` branch ranges over
`log.writers` by value, so `writer.level = newlevel` assigns to a copy of
each element and the slice is unchanged: only `UpdateLevel` runs. -/
def SetLevel (r : Registry) (name : String) (index : Int) (level : String) :
    Registry × SetLevelErr :=
  match r name with
  | none => (r, SetLevelErr.nameNotFound)
  | some log =>
    if (log.writers.length : Int) ≤ index then (r, SetLevelErr.indexOutOfBound)
    else
      let newlevel := getLevelFromStr level
      if index = -1 then
        (regUpdate r name (UpdateLevel log), SetLevelErr.ok)
      else if 0 ≤ index then
        (regUpdate r name
          (UpdateLevel
            { log with writers := setWriterLevel log.writers index.toNat newlevel }),
          SetLevelErr.ok)
      else (r, SetLevelErr.panicked)

/-- The logger `Init` installs under `"default"` when none exists:
`NewLogger(&DefaultFormatter{}, NewWriter(DEBUG, "console"))`. -/
def defaultLogger : Logger :=
  NewLogger Formatter.defaultFormatter [{ level := DEBUG, device := Device.console }]

/-- One iteration of `Init`'s loop over the configuration: name and
writer string lowercased, a writer built, then either a fresh logger is
registered or the writer is appended to the existing one;
`UpdateLevel` runs in both branches.  `none` when `NewWriter` panics. -/
def applyDefine (r : Registry) (d : LoggerDefine) : Option Registry :=
  let nm := strToLower d.name
  match NewWriter (getLevelFromStr d.level) (strToLower d.writer) with
  | none => none
  | some w =>
    match r nm with
    | none => some (regUpdate r nm (UpdateLevel (NewLogger Formatter.defaultFormatter [w])))
    | some log =>
      some (regUpdate r nm (UpdateLevel { log with writers := log.writers ++ [w] }))

/-- `Init`'s loop over the whole configuration list. -/
def applyDefines (r : Registry) : List LoggerDefine → Option Registry
  | [] => some r
  | d :: rest =>
    match applyDefine r d with
    | none => none
    | some r2 => applyDefines r2 rest

/-- `Init(config)`: apply every definition, then register
`defaultLogger` under `"default"` when that key is absent. -/
def Init (r : Registry) (config : List LoggerDefine) : Option Registry :=
  match applyDefines r config with
  | none => none
  | some r2 =>
    some (if (r2 "default").isSome then r2 else regUpdate r2 "default" defaultLogger)

/-- `GetLogger(name)`: exact map lookup, else the `"default"` entry. -/
def GetLogger (r : Registry) (name : String) : Option Logger :=
  match r name with
  | some log => some log
  | none => r "default"

/-- The per-writer delivery test of `Logger.Write`:
`level >= writer.level`. -/
def writerDelivers (level : Int) (w : Writer) : Bool :=
  decide (w.level ≤ level)

/-- The writers that receive the formatted bytes in a call
`Logger.Write(level, ...)`: none on the fast path, and exactly those
passing the per-writer test otherwise. -/
def deliveredWriters (log : Logger) (level : Int) : List Writer :=
  if level < log.minLevel then []
  else log.writers.filter (writerDelivers level)

/-- Observable effects of one `Logger.Write` call: how many times the
formatter ran, which devices received the bytes (in writer order), and
how many buffers went back to the pool. -/
structure WriteEffect where
  formats : Nat
  devWrites : List Device
  bufReturns : Nat
deriving DecidableEq

/-- `Logger.Write(level, format, a...)`: early return below the cached
`minLevel`; otherwise format once, write to every passing writer's
device, and put the buffer back.  The logger fields are never assigned,
so the returned logger is the input. -/
def Write (log : Logger) (level : Int) : Logger × WriteEffect :=
  if level < log.minLevel then
    (log, { formats := 0, devWrites := [], bufReturns := 0 })
  else
    (log,
      { formats := 1,
        devWrites := (log.writers.filter (writerDelivers level)).map (fun w => w.device),
        bufReturns := 1 })

/-- `updateNow`'s cached date: `uint32(year%100*10000 + month*100 + day)`. -/
def updateNowDate (year month day : Nat) : Nat :=
  ((year % 100) * 10000 + month * 100 + day) % 4294967296

/-- The file name `FileDevice.Write` opens:
`fmt.Sprintf("%s-%v.log", file.prefix, date)`. -/
def fileDeviceFileName (pfx : String) (date : Nat) : String :=
  pfx ++ "-" ++ Nat.repr date ++ ".log"

/-- Modelled from the spec's words, for comparison with `UpdateLevel`:
"the minimum of the writers' thresholds, or DISABLE if the writer list
is empty". -/
def minLevelSpec (ws : List Writer) : Int :=
  match ws.map (fun w => w.level) with
  | [] => DISABLE
  | x :: xs => xs.foldl min x

/-- Concrete fixtures used by witnesses and counterexamples. -/
def regOne : Registry :=
  regUpdate (fun _ => none) "a"
    (NewLogger Formatter.defaultFormatter [{ level := DEBUG, device := Device.console }])

/-- A logger registered under `"myapp"` with one WARN console writer. -/
def myappLogger : Logger :=
  NewLogger Formatter.defaultFormatter [{ level := WARN, device := Device.console }]

/-- A registry as `Init` leaves it for a config registering `myapp` at
WARN on a console device (names stored lowercased). -/
def regTwo : Registry :=
  regUpdate (regUpdate (fun _ => none) "default" defaultLogger) "myapp" myappLogger

/-- A logger whose only writer is at FATAL, with a stale cached level. -/
def loggerFatal : Logger :=
  { minLevel := 0
    format := Formatter.defaultFormatter
    writers := [{ level := FATAL, device := Device.console }] }

/-- A two-writer logger used to witness the write path. -/
def loggerTwo : Logger :=
  NewLogger Formatter.defaultFormatter
    [{ level := INFO, device := Device.console },
     { level := ERROR, device := Device.stdout }]

/-! ### Helper lemmas -/

theorem updateLevel_step_eq_min (m lv : Int) :
    (if lv < m then lv else m) = min m lv := by
  rw [min_def]
  split <;> split <;> omega

theorem foldl_min_shift (l : List Int) (a b : Int) :
    l.foldl min (min a b) = min a (l.foldl min b) := by
  induction l generalizing b with
  | nil => rfl
  | cons c l ih =>
    simp only [List.foldl_cons]
    rw [min_assoc, ih]

theorem foldl_min_le_init (l : List Int) (a : Int) : l.foldl min a ≤ a := by
  induction l generalizing a with
  | nil => exact le_refl a
  | cons c l ih =>
    simp only [List.foldl_cons]
    exact le_trans (ih (min a c)) (min_le_left a c)

theorem updateLevel_minLevel (log : Logger) :
    (UpdateLevel log).minLevel = min DISABLE (minLevelSpec log.writers) := by
  unfold UpdateLevel minLevelSpec
  have hstep : log.writers.foldl (fun m w => if w.level < m then w.level else m) DISABLE
      = (log.writers.map (fun w => w.level)).foldl min DISABLE := by
    rw [List.foldl_map]
    congr 1
    funext m w
    exact updateLevel_step_eq_min m w.level
  rw [hstep]
  cases h : log.writers.map fun w => w.level with
  | nil => simp
  | cons x xs =>
    simp only [List.foldl_cons]
    exact foldl_min_shift xs DISABLE x

theorem minLevelSpec_le_of_all_le (ws : List Writer)
    (h : ∀ w ∈ ws, w.level ≤ DISABLE) : minLevelSpec ws ≤ DISABLE := by
  unfold minLevelSpec
  cases hm : ws.map fun w => w.level with
  | nil => exact le_refl DISABLE
  | cons x xs =>
    have hx : x ∈ ws.map fun w => w.level := by rw [hm]; exact List.mem_cons_self x xs
    obtain ⟨w, hw, hwx⟩ := List.mem_map.mp hx
    calc xs.foldl min x ≤ x := foldl_min_le_init xs x
      _ ≤ DISABLE := hwx ▸ h w hw

/-! ### C1: write-path filtering -/

/-- C1: `Logger.Write` returns at once, formatting nothing and
delivering nothing, when the level is below the cached `minLevel`;
otherwise it formats exactly once and the bytes go to exactly the
writers whose threshold is met (`level >= writer.level`), so a writer
with a strictly higher threshold never receives the message. -/
theorem c1_write_filtering (log : Logger) (level : Int) :
    (level < log.minLevel →
      (Write log level).2.formats = 0 ∧ (Write log level).2.devWrites = []
        ∧ deliveredWriters log level = [])
    ∧ (log.minLevel ≤ level →
      (Write log level).2.formats = 1
        ∧ (Write log level).2.devWrites
            = (deliveredWriters log level).map (fun w => w.device)
        ∧ ∀ w, w ∈ deliveredWriters log level ↔ w ∈ log.writers ∧ w.level ≤ level)
    ∧ ∀ w ∈ log.writers, level < w.level → w ∉ deliveredWriters log level := by
  refine ⟨fun h => ?_, fun h => ?_, fun w hw hlt hmem => ?_⟩
  · simp [Write, deliveredWriters, if_pos h]
  · have hn : ¬ level < log.minLevel := not_lt.mpr h
    refine ⟨by simp [Write, if_neg hn], by simp [Write, deliveredWriters, if_neg hn], fun w => ?_⟩
    simp [deliveredWriters, if_neg hn, List.mem_filter, writerDelivers]
  · unfold deliveredWriters at hmem
    split at hmem
    · exact List.not_mem_nil w hmem
    · have := (List.mem_filter.mp hmem).2
      rw [writerDelivers, decide_eq_true_iff] at this
      omega

/-- C1 witness: on `loggerTwo` (thresholds INFO and ERROR, cached
minimum INFO), a WARN write formats once and reaches only the INFO
writer, and a DEBUG write is dropped without formatting. -/
theorem c1_write_filtering_witness :
    (Write loggerTwo WARN).2.formats = 1
    ∧ (Write loggerTwo WARN).2.devWrites
        = (deliveredWriters loggerTwo WARN).map (fun w => w.device)
    ∧ ({ level := ERROR, device := Device.stdout } ∉ deliveredWriters loggerTwo WARN)
    ∧ (Write loggerTwo DEBUG).2.formats = 0 := by
  have h1 := c1_write_filtering loggerTwo WARN
  have h2 := c1_write_filtering loggerTwo DEBUG
  refine ⟨(h1.2.1 (by decide)).1, (h1.2.1 (by decide)).2.1, ?_, (h2.1 (by decide)).1⟩
  exact h1.2.2 { level := ERROR, device := Device.stdout } (by decide) (by decide)

/-! ### C2: the cached minimum level -/

/-- C2 counterexample: `UpdateLevel` on a logger whose only writer sits
at FATAL caches DISABLE, not the writers' minimum FATAL, because the
recomputation starts at DISABLE and only ever lowers. -/
theorem c2_minlevel_counterexample :
    (UpdateLevel loggerFatal).minLevel = DISABLE
    ∧ minLevelSpec loggerFatal.writers = FATAL
    ∧ DISABLE ≠ FATAL := by
  refine ⟨by decide, by decide, by decide⟩

/-- C2 amended: the cached `minLevel` equals the minimum of DISABLE and
the writers' thresholds (DISABLE for an empty list); it equals the plain
minimum of the thresholds whenever every threshold is at most DISABLE
(true of every level `getLevelFromStr` can produce); recomputation is
idempotent; and `NewLogger` establishes the same value. -/
theorem c2_minlevel_recompute (log : Logger)
    (h : ∀ w ∈ log.writers, w.level ≤ DISABLE) :
    (UpdateLevel log).minLevel = min DISABLE (minLevelSpec log.writers)
    ∧ (UpdateLevel log).minLevel = minLevelSpec log.writers
    ∧ UpdateLevel (UpdateLevel log) = UpdateLevel log
    ∧ (NewLogger log.format log.writers).minLevel = minLevelSpec log.writers := by
  have hmin : min DISABLE (minLevelSpec log.writers) = minLevelSpec log.writers :=
    min_eq_right (minLevelSpec_le_of_all_le log.writers h)
  refine ⟨updateLevel_minLevel log, ?_, rfl, ?_⟩
  · rw [updateLevel_minLevel log, hmin]
  · rw [NewLogger, updateLevel_minLevel, hmin]

/-- C2 witness: recomputation on the two-writer fixture (INFO and
ERROR) caches INFO, the writers' minimum. -/
theorem c2_minlevel_recompute_witness :
    (UpdateLevel loggerTwo).minLevel = minLevelSpec loggerTwo.writers
    ∧ UpdateLevel (UpdateLevel loggerTwo) = UpdateLevel loggerTwo := by
  have h := c2_minlevel_recompute loggerTwo (by decide)
  exact ⟨h.2.1, h.2.2.1⟩

/-! ### C3: SetLevel error behaviour -/

/-- C3 counterexample: `SetLevel` on a registered name with index -2 —
out of range for a one-writer logger — panics at `log.writers[index]`
instead of returning the `IndexOutOfBound` error value. -/
theorem c3_setlevel_counterexample :
    (SetLevel regOne "a" (-2) "e").2 = SetLevelErr.panicked
    ∧ SetLevelErr.panicked ≠ SetLevelErr.indexOutOfBound
    ∧ SetLevelErr.panicked ≠ SetLevelErr.nameNotFound
    ∧ SetLevelErr.panicked ≠ SetLevelErr.ok := by decide

/-- C3 amended: `SetLevel` returns `NameNotFound` iff the name is
unregistered; for a registered logger it returns `IndexOutOfBound` iff
the index is at least the writer count (indexes below -1 instead panic,
as the counterexample shows); and whenever an error value is returned
the registry — every writer threshold and every cached minimum — is the
one passed in. -/
theorem c3_setlevel_errors (r : Registry) (nm lvl : String) (i : Int) :
    ((SetLevel r nm i lvl).2 = SetLevelErr.nameNotFound ↔ r nm = none)
    ∧ (∀ log, r nm = some log →
        ((SetLevel r nm i lvl).2 = SetLevelErr.indexOutOfBound
          ↔ (log.writers.length : Int) ≤ i))
    ∧ ((SetLevel r nm i lvl).2 ≠ SetLevelErr.ok → (SetLevel r nm i lvl).1 = r) := by
  unfold SetLevel
  cases h : r nm with
  | none => simp [h]
  | some log =>
    by_cases hle : (log.writers.length : Int) ≤ i
    · simp [h, hle]
    · by_cases hm1 : i = -1
      · subst hm1
        simp [h, hle]
        omega
      · by_cases h0 : 0 ≤ i
        · simp [h, hle, hm1, h0]
          omega
        · simp [h, hle, hm1, h0]
          omega

/-- C3 witness: an unregistered name yields `NameNotFound`; index 5 on
the one-writer logger `"a"` yields `IndexOutOfBound` and hands back the
untouched registry. -/
theorem c3_setlevel_errors_witness :
    (SetLevel regOne "missing" 0 "e").2 = SetLevelErr.nameNotFound
    ∧ (SetLevel regOne "a" 5 "e").2 = SetLevelErr.indexOutOfBound
    ∧ (SetLevel regOne "a" 5 "e").1 = regOne := by
  have h1 := c3_setlevel_errors regOne "missing" "e" 0
  have h2 := c3_setlevel_errors regOne "a" "e" 5
  exact ⟨h1.1.mpr rfl, (h2.2.1 _ rfl).mpr (by decide), h2.2.2 (by decide)⟩

/-! ### C4: SetLevel with index -1 -/

/-- C4: the `index == -1` branch of `SetLevel` is a no-op on the
thresholds.  On a registry whose logger `"a"` has one console writer at
DEBUG, `SetLevel("a", -1, "error")` returns nil, yet the writer is still
at DEBUG — not at the parsed ERROR — and the aggregate is still DEBUG:
the Go `for _, writer := range log.writers` loop assigns the new level
to a copy of each `Writer` value, so the stored slice never changes. -/
theorem c4_setlevel_all_writers_noop :
    (SetLevel regOne "a" (-1) "error").2 = SetLevelErr.ok
    ∧ ((SetLevel regOne "a" (-1) "error").1 "a").map
        (fun log => log.writers.map (fun w => w.level)) = some [DEBUG]
    ∧ ((SetLevel regOne "a" (-1) "error").1 "a").map
        (fun log => log.minLevel) = some DEBUG
    ∧ getLevelFromStr "error" = ERROR
    ∧ DEBUG ≠ ERROR := by decide

/-! ### C5: GetLogger lookup -/

/-- C5 counterexample: `GetLogger` does not case-normalize its argument.
`Init` stores names lowercased, so with `"myapp"` registered the query
`"MyApp"` — an exact match after case normalization — still falls back
to the default logger instead of returning the registered one. -/
theorem c5_getlogger_counterexample :
    strToLower "MyApp" = "myapp"
    ∧ regTwo "myapp" = some myappLogger
    ∧ GetLogger regTwo "MyApp" = some defaultLogger
    ∧ defaultLogger ≠ myappLogger := by decide

/-- C5 amended: `GetLogger` looks the raw name up with an exact,
case-sensitive match: a hit returns that logger, a miss returns the
`"default"` entry; whenever a default logger is registered the result is
never absent, and `GetLogger "nonexistent"` is identical to
`GetLogger "default"`. -/
theorem c5_getlogger_lookup (r : Registry) (nm : String) :
    (∀ log, r nm = some log → GetLogger r nm = some log)
    ∧ (r nm = none → GetLogger r nm = r "default")
    ∧ ((r "default").isSome → (GetLogger r nm).isSome)
    ∧ (r "nonexistent" = none → GetLogger r "nonexistent" = GetLogger r "default") := by
  unfold GetLogger
  refine ⟨fun log h => by simp [h], fun h => by simp [h], fun h => ?_, fun h => ?_⟩
  · cases hn : r nm with
    | some log => simp
    | none => simpa using h
  · simp only [h]
    cases hd : r "default" <;> simp

/-- C5 witness: on the fixture registry, the registered name hits, an
unknown name still produces a logger, and `"nonexistent"` resolves to
the same logger as `"default"`. -/
theorem c5_getlogger_lookup_witness :
    GetLogger regTwo "myapp" = some myappLogger
    ∧ (GetLogger regTwo "zzz").isSome
    ∧ GetLogger regTwo "nonexistent" = GetLogger regTwo "default" := by
  have h1 := c5_getlogger_lookup regTwo "myapp"
  have h2 := c5_getlogger_lookup regTwo "zzz"
  exact ⟨h1.1 myappLogger rfl, h2.2.2.1 (by decide), h2.2.2.2 rfl⟩

/-! ### C6: the cached date and the log file name -/

/-- C6: the cached date integer is `(year%100)*10000 + month*100 + day`
(the `uint32` conversion never wraps for calendar months and days), and
the file device opens exactly `<prefix>-<that integer>.log`. -/
theorem c6_date_and_filename (y m d : Nat) (pfx : String)
    (hm : m ≤ 12) (hd : d ≤ 31) :
    updateNowDate y m d = (y % 100) * 10000 + m * 100 + d
    ∧ fileDeviceFileName pfx (updateNowDate y m d)
        = pfx ++ "-" ++ Nat.repr ((y % 100) * 10000 + m * 100 + d) ++ ".log" := by
  have hlt : (y % 100) * 10000 + m * 100 + d < 4294967296 := by omega
  constructor
  · unfold updateNowDate
    omega
  · unfold fileDeviceFileName updateNowDate
    rw [Nat.mod_eq_of_lt hlt]

/-- C6 witness: on 2026-10-11 the date integer is 261011 and the file
for prefix `logs/app` is `logs/app-261011.log`. -/
theorem c6_date_and_filename_witness :
    updateNowDate 2026 10 11 = 261011
    ∧ fileDeviceFileName "logs/app" (updateNowDate 2026 10 11) = "logs/app-261011.log" := by
  have h := c6_date_and_filename 2026 10 11 "logs/app" (by decide) (by decide)
  exact ⟨h.1.trans (by norm_num), h.2.trans (by decide)⟩

/-! ### C7: the severity order and the DISABLE threshold -/

/-- C7 counterexample: DISABLE itself is a severity below FATAL, and a
message written at level DISABLE does pass a writer whose threshold is
DISABLE (`level >= writer.level` holds at 4 >= 4) — so such a writer
receives a message logged below FATAL. -/
theorem c7_disable_counterexample :
    writerDelivers DISABLE { level := DISABLE, device := Device.console } = true
    ∧ DISABLE < FATAL := by decide

/-- C7 amended: the constants are totally ordered
DEBUG < INFO < WARN < ERROR < DISABLE < FATAL; a writer with threshold
DISABLE receives FATAL messages and nothing logged below DISABLE — in
particular none of DEBUG, INFO, WARN, ERROR — though a message written
at the sentinel level DISABLE itself would also pass. -/
theorem c7_severity_order (s : Int) (d : Device) (hs : s < DISABLE) :
    (DEBUG < INFO ∧ INFO < WARN ∧ WARN < ERROR ∧ ERROR < DISABLE ∧ DISABLE < FATAL)
    ∧ writerDelivers FATAL { level := DISABLE, device := d } = true
    ∧ writerDelivers s { level := DISABLE, device := d } = false := by
  refine ⟨by decide, rfl, ?_⟩
  rw [writerDelivers]
  exact decide_eq_false_iff_not.mpr (not_le.mpr hs)

/-- C7 witness: a DISABLE-threshold console writer takes FATAL and
drops INFO. -/
theorem c7_severity_order_witness :
    writerDelivers FATAL { level := DISABLE, device := Device.console } = true
    ∧ writerDelivers INFO { level := DISABLE, device := Device.console } = false := by
  have h := c7_severity_order INFO Device.console (by decide)
  exact ⟨h.2.1, h.2.2⟩

/-! ### C8: parsing severity strings -/

set_option maxHeartbeats 2000000 in
/-- C8: `getLevelFromStr` lowercases its input and maps D/DEBUG to
DEBUG, I/INFO to INFO, W/WARN/WARNING to WARN, E/ERR/ERROR to ERROR and
DISABLE to DISABLE, in any letter case; every other string produces
INFO together with the printed warning; and no input produces FATAL. -/
theorem c8_level_parsing (s : String)
    (h : strToLower s ∉ (["d", "i", "w", "e", "debug", "info", "warn",
        "warning", "err", "error", "disable"] : List String)) :
    getLevelFromStrRaw "D" = (DEBUG, false)
    ∧ getLevelFromStrRaw "d" = (DEBUG, false)
    ∧ getLevelFromStrRaw "DEBUG" = (DEBUG, false)
    ∧ getLevelFromStrRaw "I" = (INFO, false)
    ∧ getLevelFromStrRaw "Info" = (INFO, false)
    ∧ getLevelFromStrRaw "w" = (WARN, false)
    ∧ getLevelFromStrRaw "WARN" = (WARN, false)
    ∧ getLevelFromStrRaw "WaRnInG" = (WARN, false)
    ∧ getLevelFromStrRaw "E" = (ERROR, false)
    ∧ getLevelFromStrRaw "Err" = (ERROR, false)
    ∧ getLevelFromStrRaw "ERROR" = (ERROR, false)
    ∧ getLevelFromStrRaw "Disable" = (DISABLE, false)
    ∧ getLevelFromStrRaw s = (INFO, true)
    ∧ (∀ t : String, (getLevelFromStrRaw t).1 ≠ FATAL) := by
  refine ⟨by decide, by decide, by decide, by decide, by decide, by decide, by decide,
    by decide, by decide, by decide, by decide, by decide, ?_, ?_⟩
  · simp only [List.mem_cons, List.not_mem_nil, or_false, not_or] at h
    obtain ⟨h1, h2, h3, h4, h5, h6, h7, h8, h9, h10, h11⟩ := h
    simp [getLevelFromStrRaw, h1, h2, h3, h4, h5, h6, h7, h8, h9, h10, h11]
  · intro t
    simp only [getLevelFromStrRaw]
    split <;> try decide
    split <;> try decide
    split <;> try decide
    split <;> try decide
    split <;> try decide
    split <;> try decide
    split <;> try decide
    split <;> try decide
    split <;> try decide
    split <;> try decide
    split <;> decide

/-- C8 witness: the unrecognized string `bogus` parses to INFO with the
warning flag set and does not produce FATAL. -/
theorem c8_level_parsing_witness :
    getLevelFromStrRaw "bogus" = (INFO, true)
    ∧ (getLevelFromStrRaw "bogus").1 ≠ FATAL := by
  have h := c8_level_parsing "bogus" (by decide)
  exact ⟨h.2.2.2.2.2.2.2.2.2.2.2.2.1, h.2.2.2.2.2.2.2.2.2.2.2.2.2 "bogus"⟩

/-! ### C9: the default logger invariant of Init -/

theorem applyDefine_other_key (r : Registry) (d : LoggerDefine) (r2 : Registry)
    (h : applyDefine r d = some r2) (k : String) (hk : k ≠ strToLower d.name) :
    r2 k = r k := by
  simp only [applyDefine] at h
  cases hw : NewWriter (getLevelFromStr d.level) (strToLower d.writer) with
  | none => simp [hw] at h
  | some w =>
    simp only [hw] at h
    cases hr : r (strToLower d.name) with
    | none =>
      simp only [hr] at h
      injection h with h
      rw [← h, regUpdate]
      simp [hk]
    | some log =>
      simp only [hr] at h
      injection h with h
      rw [← h, regUpdate]
      simp [hk]

theorem applyDefines_preserve_default (cfg : List LoggerDefine) (r r2 : Registry)
    (h : applyDefines r cfg = some r2)
    (hnd : ∀ d ∈ cfg, strToLower d.name ≠ "default")
    (h0 : r "default" = none) : r2 "default" = none := by
  induction cfg generalizing r with
  | nil =>
    simp only [applyDefines] at h
    injection h with h
    rw [← h]
    exact h0
  | cons d rest ih =>
    simp only [applyDefines] at h
    cases ha : applyDefine r d with
    | none => simp [ha] at h
    | some r1 =>
      rw [ha] at h
      have hkeep : r1 "default" = r "default" :=
        applyDefine_other_key r d r1 ha "default"
          (fun hh => hnd d (List.mem_cons_self d rest) hh.symm)
      exact ih r1 h (fun d' hd' => hnd d' (List.mem_cons_of_mem d hd'))
        (hkeep.trans h0)

/-- C9: whenever `Init` completes, the registry holds a `"default"`
entry; when no configuration entry names `default` and none was
registered before, that entry is exactly `defaultLogger` — a single
console writer at DEBUG, aggregate DEBUG. -/
theorem c9_init_default (r r2 : Registry) (cfg : List LoggerDefine)
    (h : Init r cfg = some r2) :
    (r2 "default").isSome
    ∧ ((∀ d ∈ cfg, strToLower d.name ≠ "default") → r "default" = none →
        r2 "default" = some defaultLogger)
    ∧ defaultLogger.writers = [{ level := DEBUG, device := Device.console }]
    ∧ defaultLogger.minLevel = DEBUG := by
  simp only [Init] at h
  cases ha : applyDefines r cfg with
  | none => rw [ha] at h; cases h
  | some rmid =>
    rw [ha] at h
    injection h with h
    refine ⟨?_, ?_, by decide, by decide⟩
    · rw [← h]
      by_cases hd : (rmid "default").isSome
      · simp [hd]
      · simp [hd, regUpdate]
    · intro hnd h0
      have hmid : rmid "default" = none :=
        applyDefines_preserve_default cfg r rmid ha hnd h0
      rw [← h]
      simp [hmid, regUpdate]

/-- C9 witness: `Init` on an empty registry and empty configuration
installs `defaultLogger` under `"default"`. -/
theorem c9_init_default_witness :
    ((regUpdate (fun _ => none) "default" defaultLogger) "default").isSome
    ∧ (regUpdate (fun _ => none) "default" defaultLogger) "default"
        = some defaultLogger := by
  have h := c9_init_default (fun _ => none)
    (regUpdate (fun _ => none) "default" defaultLogger) [] rfl
  exact ⟨h.1, h.2.1 (by simp) rfl⟩

/-! ### C10: Write leaves the logger unchanged -/

/-- C10: a `Logger.Write` call never changes the logger — writer list,
thresholds, cached `minLevel` and formatter are those of the input — and
its only effects are the device writes and returning the formatting
buffer to the pool exactly once per format. -/
theorem c10_write_frame (log : Logger) (level : Int) :
    (Write log level).1 = log
    ∧ (Write log level).2.bufReturns = (Write log level).2.formats
    ∧ (Write log level).2.bufReturns ≤ 1 := by
  unfold Write
  split <;> simp

end Log
